import Mathlib

/-!
Shallow embedding of the `blysbackend` task-manager REST service.

The embedding follows the JavaScript sources file by file:

* `models/User.js`, `models/Task.js` — the two persisted tables;
* `utils/validation.js` — `paginationValidation`, `taskValidation` and the
  `validate` middleware;
* `controllers/taskController.js` — `getTasks`, `getTask`, `updateTask`,
  `deleteTask`;
* `controllers/authController.js` — `register`, `logout`, `getMe`,
  `sendTokenResponse`;
* `middleware/authMiddleware.js` (reproduced in `SETUP.md`) — `protect`.

Stores are lists of rows; HTTP handlers are pure functions from a store and
the request data to a response (and, for mutations, to the new store).
Dates and timestamps are modelled as naturals (day ordinals / epoch
milliseconds); the external `jsonwebtoken` and `bcrypt` libraries are
modelled from their documented contracts where noted.
-/

namespace Blys

/-- A persisted user row (`users` table, `models/User.js`). -/
structure User where
  id : Nat
  name : String
  email : String
  password : String
  createdAt : Nat
deriving Repr, DecidableEq

/-- A persisted task row (`tasks` table, `models/Task.js`).  `priority` is a
string column constrained to `low`/`medium`/`high`; `endDate` is a DATEONLY
column modelled as a day ordinal. -/
structure Task where
  id : Nat
  userId : Nat
  title : String
  description : Option String
  priority : String
  endDate : Nat
  createdAt : Nat
  updatedAt : Nat
deriving Repr, DecidableEq

/-- A per-field validation error, as produced by the `validate` middleware in
`utils/validation.js` (`{ field, message }`). -/
structure FieldError where
  field : String
  message : String
deriving Repr, DecidableEq

/-- JavaScript `parseInt(x) || d` as used in `getTasks`: an absent parameter
(`parseInt(undefined)` is `NaN`, falsy) and the falsy value `0` fall back to
the default `d`; any other integer is kept. -/
def jsIntOr (v : Option Int) (d : Int) : Int :=
  match v with
  | none => d
  | some n => if n = 0 then d else n

/-- JavaScript `x || d` on an optional string: absent and `""` are falsy. -/
def jsStrOr (v : Option String) (d : String) : String :=
  match v with
  | none => d
  | some s => if s = "" then d else s

/-- The CASE expression in `getTasks` (`taskController.js`):
`high → 1`, `medium → 2`, `low → 3`; any other value yields SQL NULL, which
Postgres places last under `ASC` and first under `DESC`, i.e. rank 4. -/
def priorityRank (p : String) : Nat :=
  if p = "high" then 1 else if p = "medium" then 2 else if p = "low" then 3 else 4

/-- Sort key selected by `sortBy` after the `sortMapping` lookup in
`getTasks`: `priority` uses the CASE rank, `created_at` the creation
timestamp, and `end_date` (or any unmapped value, via the `|| 'endDate'`
fallback) the end date. -/
def sortKey (sortBy : String) (t : Task) : Nat :=
  if sortBy = "priority" then priorityRank t.priority
  else if sortBy = "created_at" then t.createdAt
  else t.endDate

/-- The ORDER BY comparator: ascending on the sort key, flipped for
`order = "desc"`. -/
def taskLE (sortBy order : String) (a b : Task) : Bool :=
  if order = "desc" then decide (sortKey sortBy b ≤ sortKey sortBy a)
  else decide (sortKey sortBy a ≤ sortKey sortBy b)

/-- `taskLE` as a relation, for sorting. -/
def taskRel (sortBy order : String) (a b : Task) : Prop :=
  taskLE sortBy order a b = true

instance (s o : String) (a b : Task) : Decidable (taskRel s o a b) :=
  inferInstanceAs (Decidable (_ = true))

/-- The WHERE clause of `findAndCountAll` in `getTasks`:
`where: { userId: req.user.id }`. -/
def matchingTasks (store : List Task) (uid : Nat) : List Task :=
  store.filter (fun t => t.userId == uid)

/-- The ordered result set: SQL `ORDER BY` is modelled as a sort of the
matching rows under the comparator (any sort agreeing with the key order is
a faithful model, since SQL leaves ties unspecified). -/
def sortedTasks (sortBy order : String) (store : List Task) (uid : Nat) : List Task :=
  List.insertionSort (taskRel sortBy order) (matchingTasks store uid)

/-- SQL `OFFSET offset LIMIT limit` applied to the ordered result set, with
`offset = (page - 1) * limit` exactly as computed in `getTasks`. -/
def pageRows (store : List Task) (uid : Nat) (page limit : Int)
    (sortBy order : String) : List Task :=
  ((sortedTasks sortBy order store uid).drop ((page - 1) * limit).toNat).take limit.toNat

/-- The pagination metadata object built by `getTasks`. -/
structure Pagination where
  currentPage : Int
  totalPages : Int
  totalTasks : Nat
  limit : Int
  hasNext : Bool
  hasPrev : Bool
deriving Repr, DecidableEq

/-- Response of `GET /api/tasks`: a 200 listing or the 400 of the `validate`
middleware. -/
inductive TasksResp where
  | ok (count : Nat) (pagination : Pagination) (tasks : List Task)
  | badRequest (errors : List FieldError)
deriving Repr, DecidableEq

/-- The body of `getTasks` (`taskController.js`), reached only after
`paginationValidation`/`validate` pass.  `Math.ceil(count / limit)` is
modelled by the integer ceiling formula, which agrees with it for the
positive limits the validated route admits. -/
def getTasksCore (store : List Task) (uid : Nat) (pageQ limitQ : Option Int)
    (sortByQ orderQ : Option String) : TasksResp :=
  let page := jsIntOr pageQ 1
  let limit := jsIntOr limitQ 10
  let sortBy := jsStrOr sortByQ "end_date"
  let order := jsStrOr orderQ "asc"
  let count := (matchingTasks store uid).length
  let rows := pageRows store uid page limit sortBy order
  let totalPages := (Int.ofNat count + limit - 1) / limit
  .ok rows.length
    { currentPage := page, totalPages := totalPages, totalTasks := count,
      limit := limit, hasNext := decide (page < totalPages),
      hasPrev := decide (page > 1) }
    rows

/-- `paginationValidation` (`utils/validation.js`): each query parameter is
optional; a supplied `page` must be an integer ≥ 1, a supplied `limit` an
integer in [1,100], `sortBy` and `order` members of their fixed sets.
Parameters are modelled as already-parsed integers/strings; a supplied
non-integer string is rejected by `isInt` just like an out-of-range one. -/
def paginationErrors (pageQ limitQ : Option Int)
    (sortByQ orderQ : Option String) : List FieldError :=
  (match pageQ with
   | none => []
   | some p => if p < 1 then [⟨"page", "Page must be a positive integer"⟩] else []) ++
  (match limitQ with
   | none => []
   | some l => if l < 1 ∨ 100 < l then [⟨"limit", "Limit must be between 1 and 100"⟩] else []) ++
  (match sortByQ with
   | none => []
   | some s => if s = "end_date" ∨ s = "priority" ∨ s = "created_at" then []
               else [⟨"sortBy", "SortBy must be end_date, priority, or created_at"⟩]) ++
  (match orderQ with
   | none => []
   | some o => if o = "asc" ∨ o = "desc" then []
               else [⟨"order", "Order must be asc or desc"⟩])

/-- `GET /api/tasks` end to end: `paginationValidation` then `validate`
(400 on any error) then `getTasks` (route wiring in `routes/taskRoutes.js`). -/
def handleGetTasks (store : List Task) (uid : Nat) (pageQ limitQ : Option Int)
    (sortByQ orderQ : Option String) : TasksResp :=
  let errs := paginationErrors pageQ limitQ sortByQ orderQ
  if errs = [] then getTasksCore store uid pageQ limitQ sortByQ orderQ
  else .badRequest errs

/-- Request body of `POST`/`PUT /api/tasks`.  `none` models an absent
(JavaScript `undefined`) field.  `endDate`, when supplied, is the
already-parsed date (`isISO8601().toDate()` rejects malformed strings
before the controller runs). -/
structure TaskBody where
  title : Option String
  description : Option String
  priority : Option String
  endDate : Option Nat
deriving Repr, DecidableEq

/-- The `.trim()` sanitizer: strip whitespace from both ends, expressed
over the character list. -/
def strTrim (s : String) : String :=
  String.mk (((s.data.dropWhile Char.isWhitespace).reverse.dropWhile
    Char.isWhitespace).reverse)

/-- The `.trim()` sanitizers of `taskValidation` rewrite the body before
validation and before the controller sees it. -/
def trimTaskBody (b : TaskBody) : TaskBody :=
  { b with title := b.title.map strTrim,
           description := b.description.map strTrim }

/-- `taskValidation` (`utils/validation.js`) on the sanitized body.
express-validator runs every validator of a chain (no `bail()`), so a
missing `priority` or `endDate` fails both its `notEmpty` and its
format check; a missing field is coerced to `""` for string validators. -/
def taskBodyErrors (b : TaskBody) : List FieldError :=
  (match b.title with
   | none => [⟨"title", "Title is required"⟩]
   | some t =>
     if t = "" then [⟨"title", "Title is required"⟩]
     else if 255 < t.length then [⟨"title", "Title cannot exceed 255 characters"⟩]
     else []) ++
  (match b.priority with
   | none => [⟨"priority", "Priority is required"⟩,
              ⟨"priority", "Priority must be low, medium, or high"⟩]
   | some p =>
     if p = "" then [⟨"priority", "Priority is required"⟩,
                     ⟨"priority", "Priority must be low, medium, or high"⟩]
     else if p = "low" ∨ p = "medium" ∨ p = "high" then []
     else [⟨"priority", "Priority must be low, medium, or high"⟩]) ++
  (match b.endDate with
   | none => [⟨"endDate", "End date is required"⟩,
              ⟨"endDate", "End date must be a valid date (YYYY-MM-DD)"⟩]
   | some _ => [])

/-- `Task.findOne({ where: { id: req.params.id, userId: req.user.id } })`
shared by `getTask`, `updateTask` and `deleteTask`. -/
def findTask (store : List Task) (tid uid : Nat) : Option Task :=
  store.find? (fun t => t.id == tid && t.userId == uid)

/-- Response of `GET /api/tasks/:id`. -/
inductive TaskResp where
  | ok (task : Task)
  | notFound (message : String)
deriving Repr, DecidableEq

/-- HTTP status of a `GET /api/tasks/:id` response. -/
def TaskResp.status : TaskResp → Nat
  | .ok _ => 200
  | .notFound _ => 404

/-- The `success` flag of a `GET /api/tasks/:id` response body. -/
def TaskResp.success : TaskResp → Bool
  | .ok _ => true
  | .notFound _ => false

/-- `getTask` (`taskController.js`). -/
def handleGetTask (store : List Task) (tid uid : Nat) : TaskResp :=
  match findTask store tid uid with
  | none => .notFound "Task not found or you do not have permission to view it."
  | some t => .ok t

/-- Response of `PUT /api/tasks/:id`. -/
inductive UpdateResp where
  | ok (message : String) (task : Task)
  | notFound (message : String)
  | badRequest (errors : List FieldError)
deriving Repr, DecidableEq

/-- HTTP status of a `PUT /api/tasks/:id` response. -/
def UpdateResp.status : UpdateResp → Nat
  | .ok _ _ => 200
  | .notFound _ => 404
  | .badRequest _ => 400

/-- The `success` flag of a `PUT /api/tasks/:id` response body. -/
def UpdateResp.success : UpdateResp → Bool
  | .ok _ _ => true
  | _ => false

/-- The field merge in `updateTask` (`taskController.js`):
`task.title = title || task.title` (an empty string is falsy and keeps the
old value), `task.description = description !== undefined ? description :
task.description`, `task.priority = priority || task.priority`,
`task.endDate = endDate || task.endDate` (a parsed `Date` is always
truthy); `task.save()` refreshes the `updated_at` timestamp. -/
def mergeTask (t : Task) (b : TaskBody) (now : Nat) : Task :=
  { t with
    title := jsStrOr b.title t.title,
    description := match b.description with | none => t.description | some s => some s,
    priority := jsStrOr b.priority t.priority,
    endDate := match b.endDate with | none => t.endDate | some d => d,
    updatedAt := now }

/-- The body of `updateTask`: find the owned task, merge the supplied
fields, persist the instance (replace the row with its primary key). -/
def updateTaskCore (store : List Task) (tid uid : Nat) (b : TaskBody) (now : Nat) :
    List Task × UpdateResp :=
  match findTask store tid uid with
  | none => (store, .notFound "Task not found or you do not have permission to update it.")
  | some t =>
    let merged := mergeTask t b now
    (store.map (fun u => if u.id == t.id then merged else u),
     .ok "Task updated successfully" merged)

/-- `PUT /api/tasks/:id` end to end: the route (`taskRoutes`) applies the
full `taskValidation` rule set and `validate` before `updateTask`. -/
def handleUpdateTask (store : List Task) (tid uid : Nat) (body : TaskBody)
    (now : Nat) : List Task × UpdateResp :=
  let b := trimTaskBody body
  let errs := taskBodyErrors b
  if errs = [] then updateTaskCore store tid uid b now
  else (store, .badRequest errs)

/-- Response of `DELETE /api/tasks/:id`. -/
inductive DeleteResp where
  | ok (message : String)
  | notFound (message : String)
deriving Repr, DecidableEq

/-- HTTP status of a `DELETE /api/tasks/:id` response. -/
def DeleteResp.status : DeleteResp → Nat
  | .ok _ => 200
  | .notFound _ => 404

/-- The `success` flag of a `DELETE /api/tasks/:id` response body. -/
def DeleteResp.success : DeleteResp → Bool
  | .ok _ => true
  | .notFound _ => false

/-- `deleteTask` (`taskController.js`): find the owned task, `destroy()` it
(hard delete of the row). -/
def handleDeleteTask (store : List Task) (tid uid : Nat) : List Task × DeleteResp :=
  match findTask store tid uid with
  | none => (store, .notFound "Task not found or you do not have permission to delete it.")
  | some t =>
    (store.filter (fun u => !(u.id == t.id)), .ok "Task deleted successfully")

/-- A JSON web token as handed to `jwt.verify`.
Modelled from the spec: the external `jsonwebtoken` library is not part of
the repository; per the Token Service contract a token is a signed
structure binding the user id and an expiry instant under a server-held
secret, and anything else is malformed. -/
inductive Token where
  | signed (secret : Nat) (id : Nat) (exp : Nat)
  | malformed (raw : String)
deriving Repr, DecidableEq

/-- The two typed failures of `jwt.verify`: `TokenExpiredError` and
`JsonWebTokenError`. -/
inductive JwtError where
  | expired
  | invalid
deriving Repr, DecidableEq

/-- `jwt.verify(token, secret)` evaluated at time `now`.
Modelled from the spec: verification fails closed — a wrong-secret
signature or a structurally malformed token is a `JsonWebTokenError`, an
expiry not in the future is a `TokenExpiredError`; only a well-signed,
unexpired token yields the bound user id. -/
def jwtVerify (secret now : Nat) : Token → Except JwtError Nat
  | .signed s uid exp =>
    if s = secret then (if now < exp then .ok uid else .error .expired)
    else .error .invalid
  | .malformed _ => .error .invalid

/-- The parts of a request that `protect` reads: the `token` cookie and the
`Authorization` header, the latter split into its scheme word and the token
after the space. -/
structure AuthRequest where
  cookieToken : Option Token
  authHeader : Option (String × Token)
deriving Repr

/-- `authorization.startsWith("Bearer")`: a character-prefix test
(`String.startsWith` checks exactly this prefix relation). -/
def startsWithBearer (s : String) : Bool :=
  "Bearer".data.isPrefixOf s.data

/-- Token extraction in `protect`: the cookie is the primary source; the
fallback is a header whose value starts with `Bearer`, taking the part
after the space. -/
def extractToken (req : AuthRequest) : Option Token :=
  match req.cookieToken with
  | some t => some t
  | none =>
    match req.authHeader with
    | some (scheme, t) => if startsWithBearer scheme then some t else none
    | none => none

/-- The user object `protect` attaches to the request context: the result
of `findByPk` with the `password` attribute excluded. -/
structure SafeUser where
  id : Nat
  name : String
  email : String
  createdAt : Nat
deriving Repr, DecidableEq

/-- The attribute projection `attributes: { exclude: [ \x27password\x27 ] }`. -/
def stripPassword (u : User) : SafeUser :=
  { id := u.id, name := u.name, email := u.email, createdAt := u.createdAt }

/-- `User.findByPk(id)`. -/
def findByPk (users : List User) (uid : Nat) : Option User :=
  users.find? (fun u => u.id == uid)

/-- Outcome of the `protect` middleware: either the request proceeds with
the attached user, or one of the four 401 rejections. -/
inductive AuthResult where
  | ok (user : SafeUser)
  | noToken
  | expiredToken
  | invalidToken
  | userNotFound
deriving Repr, DecidableEq

/-- `protect` (`middleware/authMiddleware.js`, reproduced in `SETUP.md`):
extract the token, verify it, look the bound user id up, and attach the
password-stripped user on success. -/
def protect (users : List User) (secret now : Nat) (req : AuthRequest) : AuthResult :=
  match extractToken req with
  | none => .noToken
  | some tok =>
    match jwtVerify secret now tok with
    | .error .expired => .expiredToken
    | .error .invalid => .invalidToken
    | .ok uid =>
      match findByPk users uid with
      | none => .userNotFound
      | some u => .ok (stripPassword u)

/-- A structured error response body plus its HTTP status. -/
structure ErrResp where
  status : Nat
  success : Bool
  message : String
deriving Repr, DecidableEq

/-- The response `protect` sends on each failure (none on success, where it
calls `next()`). -/
def authFailResponse : AuthResult → Option ErrResp
  | .ok _ => none
  | .noToken => some ⟨401, false, "Not authorized to access this route. Please login."⟩
  | .expiredToken => some ⟨401, false, "Token has expired. Please login again."⟩
  | .invalidToken => some ⟨401, false, "Invalid token. Please login again."⟩
  | .userNotFound => some ⟨401, false, "User not found. Token is invalid."⟩

/-- A cost-10 bcrypt hash string.
Modelled from the spec: the external `bcrypt` library is not part of the
repository.  Per the Credential Store contract the plaintext is hashed
with a fresh salt at cost factor 10; a cost-10 hash is the 7-character
parameter prefix `$2b$10$`, the 22-character salt, and the digest.  The
digest is modelled as the plaintext itself, which keeps exactly the
contract the code relies on: the hash is deterministic given the salt, is
never equal to the plaintext, and comparison re-hashes under the stored
salt. -/
def bcryptHash (cost : Nat) (salt pw : String) : String :=
  "$2b$" ++ toString cost ++ "$" ++ salt ++ pw

/-- `bcrypt.compare(entered, stored)`.
Modelled from the spec: `verify` recomputes the hash of `entered` under
the parameters and salt stored in the first 29 characters of a cost-10
hash and compares the resulting full strings. -/
def bcryptCompare (entered stored : String) : Bool :=
  stored.data == stored.data.take 29 ++ entered.data

/-- The `beforeCreate` hook of `models/User.js`: `bcrypt.genSalt(10)` then
`bcrypt.hash` replace the plaintext with the hash before the row is
persisted. -/
def hashedUser (id : Nat) (name email pw salt : String) (now : Nat) : User :=
  { id := id, name := name, email := email,
    password := bcryptHash 10 salt pw, createdAt := now }

/-- `User.prototype.comparePassword`. -/
def comparePassword (u : User) (entered : String) : Bool :=
  bcryptCompare entered u.password

/-- Response of `POST /api/auth/register`: 201 with the created row (whose
serialized projection is `sendTokenResponseUserJson`), or the 400
duplicate-email rejection. -/
inductive RegisterResp where
  | created (user : User)
  | emailTaken
deriving Repr, DecidableEq

/-- `register` (`controllers/authController.js`): duplicate-email lookup,
then `User.create` — which hashes the password via the model hook.  `salt`
is the salt `bcrypt.genSalt(10)` produced, `newId` the id the database
assigns. -/
def register (users : List User) (name email pw salt : String)
    (newId now : Nat) : List User × RegisterResp :=
  match users.find? (fun u => u.email == email) with
  | some _ => (users, .emailTaken)
  | none =>
    let u := hashedUser newId name email pw salt now
    (users ++ [u], .created u)

/-- The whole persisted state: the `users` and `tasks` tables. -/
structure AppState where
  users : List User
  tasks : List Task
deriving Repr, DecidableEq

/-- A `res.cookie(name, value, options)` call. -/
structure CookieSet where
  name : String
  value : String
  expiresInMs : Nat
  httpOnly : Bool
deriving Repr, DecidableEq

/-- `logout` (`controllers/authController.js`): re-set the `token` cookie
to the literal string `none` expiring 10 seconds from now and answer 200;
no store operation is performed. -/
def logout (s : AppState) : AppState × CookieSet × ErrResp :=
  (s,
   { name := "token", value := "none", expiresInMs := 10 * 1000, httpOnly := true },
   { status := 200, success := true, message := "Logout successful" })

/-- A minimal JSON value, for serialized payload fields. -/
inductive JVal where
  | str (s : String)
  | num (n : Nat)
  | nul
deriving Repr, DecidableEq

/-- The `user` object `sendTokenResponse` serializes for register and login
responses: exactly `id`, `name`, `email`. -/
def sendTokenResponseUserJson (u : User) : List (String × JVal) :=
  [("id", .num u.id), ("name", .str u.name), ("email", .str u.email)]

/-- The `user` object `getMe` serializes: `id`, `name`, `email`,
`createdAt` (after a `findByPk` that already excludes `password`). -/
def getMeUserJson (u : User) : List (String × JVal) :=
  [("id", .num u.id), ("name", .str u.name), ("email", .str u.email),
   ("createdAt", .num u.createdAt)]

/-- The attribute names of the `User` model (`models/User.js`). -/
def userAttributeNames : List String :=
  ["id", "name", "email", "password", "createdAt"]

/-- The attributes `protect` selects when fetching the user: the model
attributes minus the excluded `password`. -/
def protectSelectedAttributes : List String :=
  userAttributeNames.filter (fun a => a != "password")

/-- The explicit attribute list of `findAndCountAll` in `getTasks`. -/
def getTasksSelectedAttributes : List String :=
  ["id", "title", "description", "priority", "endDate", "createdAt", "updatedAt"]

/-! ### Sample rows used to instantiate the theorems on concrete inputs -/

/-- A high-priority task owned by user 5. -/
def sampleHigh : Task := ⟨1, 5, "a", none, "high", 3, 1, 1⟩

/-- A medium-priority task owned by user 5. -/
def sampleMedium : Task := ⟨2, 5, "b", none, "medium", 2, 2, 2⟩

/-- A low-priority task owned by user 5. -/
def sampleLow : Task := ⟨3, 5, "c", none, "low", 1, 3, 3⟩

/-- A task owned by a different user (user 9). -/
def sampleForeign : Task := ⟨4, 9, "d", none, "high", 1, 4, 4⟩

/-- A store holding the four sample tasks in scrambled insertion order. -/
def sampleStore : List Task := [sampleLow, sampleForeign, sampleMedium, sampleHigh]

/-- The page user 5 receives from `sampleStore` under a priority-ascending
listing. -/
def samplePage : List Task := [sampleHigh, sampleMedium, sampleLow]

/-! ### Helper lemmas about the task query engine -/

theorem taskLE_total (s o : String) (a b : Task) :
    taskLE s o a b = true ∨ taskLE s o b a = true := by
  unfold taskLE
  split <;> rcases Nat.le_total (sortKey s a) (sortKey s b) with h | h <;> simp [h]

theorem taskLE_trans (s o : String) (a b c : Task) :
    taskLE s o a b = true → taskLE s o b c = true → taskLE s o a c = true := by
  unfold taskLE
  split <;> · simp only [decide_eq_true_eq]; omega

theorem sortedTasks_pairwise (s o : String) (store : List Task) (uid : Nat) :
    List.Pairwise (taskRel s o) (sortedTasks s o store uid) := by
  have h := @List.sorted_insertionSort Task (taskRel s o) _
    ⟨fun a b => taskLE_total s o a b⟩ ⟨fun a b c => taskLE_trans s o a b c⟩
    (matchingTasks store uid)
  simpa [List.Sorted, sortedTasks] using h

theorem pageRows_sublist (store : List Task) (uid : Nat) (p l : Int) (s o : String) :
    (pageRows store uid p l s o).Sublist (sortedTasks s o store uid) :=
  (List.take_sublist _ _).trans (List.drop_sublist _ _)

theorem pageRows_pairwise (store : List Task) (uid : Nat) (p l : Int) (s o : String) :
    List.Pairwise (taskRel s o) (pageRows store uid p l s o) :=
  List.Pairwise.sublist (pageRows_sublist store uid p l s o)
    (sortedTasks_pairwise s o store uid)

theorem pageRows_userId {store : List Task} {uid : Nat} {p l : Int} {s o : String}
    {t : Task} (h : t ∈ pageRows store uid p l s o) : t.userId = uid := by
  have h1 : t ∈ sortedTasks s o store uid :=
    (pageRows_sublist store uid p l s o).subset h
  have h2 : t ∈ matchingTasks store uid :=
    (List.perm_insertionSort (taskRel s o) (matchingTasks store uid)).subset h1
  have h3 := (List.mem_filter.mp h2).2
  simpa using h3

/-- Inversion of a successful `GET /api/tasks`: validation passed and the
response components are exactly what `getTasks` computes. -/
theorem handleGetTasks_ok_inv {store : List Task} {uid : Nat}
    {pageQ limitQ : Option Int} {sortByQ orderQ : Option String}
    {c : Nat} {pg : Pagination} {tasks : List Task}
    (h : handleGetTasks store uid pageQ limitQ sortByQ orderQ = .ok c pg tasks) :
    paginationErrors pageQ limitQ sortByQ orderQ = [] ∧
    pg.currentPage = jsIntOr pageQ 1 ∧
    pg.limit = jsIntOr limitQ 10 ∧
    pg.totalTasks = (matchingTasks store uid).length ∧
    tasks = pageRows store uid (jsIntOr pageQ 1) (jsIntOr limitQ 10)
      (jsStrOr sortByQ "end_date") (jsStrOr orderQ "asc") ∧
    c = tasks.length := by
  by_cases he : paginationErrors pageQ limitQ sortByQ orderQ = []
  · simp only [handleGetTasks, getTasksCore, if_pos he] at h
    injection h with h1 h2 h3
    subst h1; subst h2; subst h3
    exact ⟨he, rfl, rfl, rfl, rfl, rfl⟩
  · simp only [handleGetTasks, if_neg he] at h
    exact absurd h (by simp)

theorem priorityRank_pos (p : String) : 1 ≤ priorityRank p := by
  unfold priorityRank; split_ifs <;> omega

theorem priorityRank_eq_one {p : String} (h : priorityRank p = 1) : p = "high" := by
  unfold priorityRank at h
  split_ifs at h with h1 h2 h3
  · exact h1
  · omega
  · omega
  · omega

theorem priorityRank_le_two {p : String} (h : priorityRank p ≤ 2) :
    p = "high" ∨ p = "medium" := by
  unfold priorityRank at h
  split_ifs at h with h1 h2 h3
  · exact Or.inl h1
  · exact Or.inr h2
  · omega
  · omega

/-- A rank-monotone pair satisfies the high-first / medium-second reading
of the fixed rank mapping. -/
theorem rank_le_cases {a b : Task}
    (hr : priorityRank a.priority ≤ priorityRank b.priority) :
    (b.priority = "high" → a.priority = "high") ∧
    (b.priority = "medium" → a.priority = "high" ∨ a.priority = "medium") := by
  have hH : priorityRank "high" = 1 := by decide
  have hM : priorityRank "medium" = 2 := by decide
  constructor
  · intro hb; rw [hb, hH] at hr
    exact priorityRank_eq_one (Nat.le_antisymm hr (priorityRank_pos _))
  · intro hb; rw [hb, hM] at hr
    exact priorityRank_le_two hr

/-! ### The claims -/

/-- C2: for every user and every combination of page, limit, sortBy and
order, a successful task listing returns only tasks whose owner id equals
the requesting user id, its total count counts only that user's tasks, and
no task owned by any other user is returned. -/
theorem getTasks_owner_scoped
    (store : List Task) (uid : Nat) (pageQ limitQ : Option Int)
    (sortByQ orderQ : Option String) (c : Nat) (pg : Pagination) (tasks : List Task)
    (h : handleGetTasks store uid pageQ limitQ sortByQ orderQ = .ok c pg tasks) :
    (∀ t ∈ tasks, t.userId = uid) ∧
    pg.totalTasks = (store.filter (fun t => t.userId == uid)).length ∧
    (∀ b : Nat, b ≠ uid → ∀ t ∈ tasks, t.userId ≠ b) := by
  obtain ⟨-, -, -, htot, hts, -⟩ := handleGetTasks_ok_inv h
  subst hts
  exact ⟨fun t ht => pageRows_userId ht, htot,
    fun b hb t ht hbt => hb (hbt.symm.trans (pageRows_userId ht))⟩

/-- Witness for C2 on the concrete sample store. -/
theorem getTasks_owner_scoped_witness :
    (∀ t ∈ samplePage, t.userId = 5) ∧
    (⟨1, 1, 3, 10, false, false⟩ : Pagination).totalTasks =
      ((sampleStore.filter (fun t => t.userId == 5))).length ∧
    (∀ b : Nat, b ≠ 5 → ∀ t ∈ samplePage, t.userId ≠ b) :=
  getTasks_owner_scoped sampleStore 5 none none (some "priority") (some "asc")
    3 ⟨1, 1, 3, 10, false, false⟩ samplePage (by decide)

/-- C1: a successful priority-sorted listing is ordered by the fixed rank
mapping high → 1, medium → 2, low → 3: ascending order is rank-monotone
(every high-priority task precedes every medium one, which precedes every
low one, regardless of insertion order), and descending order reverses the
rank order. -/
theorem getTasks_priority_rank_ordered
    (store : List Task) (uid : Nat) (pageQ limitQ : Option Int)
    (orderQ : Option String) (c : Nat) (pg : Pagination) (tasks : List Task)
    (h : handleGetTasks store uid pageQ limitQ (some "priority") orderQ = .ok c pg tasks) :
    (jsStrOr orderQ "asc" = "asc" →
      ∀ i j (hi : i < tasks.length) (hj : j < tasks.length), i < j →
        priorityRank (tasks.get ⟨i, hi⟩).priority ≤ priorityRank (tasks.get ⟨j, hj⟩).priority ∧
        ((tasks.get ⟨j, hj⟩).priority = "high" → (tasks.get ⟨i, hi⟩).priority = "high") ∧
        ((tasks.get ⟨j, hj⟩).priority = "medium" →
          (tasks.get ⟨i, hi⟩).priority = "high" ∨ (tasks.get ⟨i, hi⟩).priority = "medium")) ∧
    (jsStrOr orderQ "asc" = "desc" →
      ∀ i j (hi : i < tasks.length) (hj : j < tasks.length), i < j →
        priorityRank (tasks.get ⟨j, hj⟩).priority ≤ priorityRank (tasks.get ⟨i, hi⟩).priority ∧
        ((tasks.get ⟨i, hi⟩).priority = "high" → (tasks.get ⟨j, hj⟩).priority = "high") ∧
        ((tasks.get ⟨i, hi⟩).priority = "medium" →
          (tasks.get ⟨j, hj⟩).priority = "high" ∨ (tasks.get ⟨j, hj⟩).priority = "medium")) := by
  obtain ⟨-, -, -, -, hts, -⟩ := handleGetTasks_ok_inv h
  have hsby : jsStrOr (some "priority") "end_date" = "priority" := by decide
  rw [hsby] at hts
  subst hts
  have hpw := pageRows_pairwise store uid (jsIntOr pageQ 1) (jsIntOr limitQ 10)
    "priority" (jsStrOr orderQ "asc")
  have hks : ∀ t : Task, sortKey "priority" t = priorityRank t.priority := fun t => rfl
  constructor
  · intro horder i j hi hj hij
    have hr := List.pairwise_iff_get.mp hpw ⟨i, hi⟩ ⟨j, hj⟩ hij
    have hne : ¬ (jsStrOr orderQ "asc" = "desc") := by rw [horder]; decide
    unfold taskRel taskLE at hr
    rw [if_neg hne, decide_eq_true_eq, hks, hks] at hr
    exact ⟨hr, rank_le_cases hr⟩
  · intro horder i j hi hj hij
    have hr := List.pairwise_iff_get.mp hpw ⟨i, hi⟩ ⟨j, hj⟩ hij
    unfold taskRel taskLE at hr
    rw [if_pos horder, decide_eq_true_eq, hks, hks] at hr
    exact ⟨hr, rank_le_cases hr⟩

/-- Witness for C1: on the sample store the first page entry (high) ranks
no later than the last (low). -/
theorem getTasks_priority_rank_ordered_witness :
    jsStrOr (some "asc") "asc" = "asc" ∧
    priorityRank (samplePage.get ⟨0, by decide⟩).priority ≤
      priorityRank (samplePage.get ⟨2, by decide⟩).priority :=
  ⟨by decide,
   ((getTasks_priority_rank_ordered sampleStore 5 none none (some "asc")
       3 ⟨1, 1, 3, 10, false, false⟩ samplePage (by decide)).1
     (by decide) 0 2 (by decide) (by decide) (by decide)).1⟩

/-- A passing `paginationValidation` bounds any supplied page and limit. -/
theorem paginationErrors_nil_inv {pageQ limitQ : Option Int}
    {sortByQ orderQ : Option String}
    (h : paginationErrors pageQ limitQ sortByQ orderQ = []) :
    (∀ p, pageQ = some p → 1 ≤ p) ∧ (∀ l, limitQ = some l → 1 ≤ l ∧ l ≤ 100) := by
  constructor
  · intro p hp
    subst hp
    by_contra hc
    rw [Int.not_le] at hc
    simp only [paginationErrors, if_pos hc] at h
    simp at h
  · intro l hl
    subst hl
    by_cases hc : l < 1 ∨ 100 < l
    · exfalso
      simp only [paginationErrors, if_pos hc] at h
      simp at h
    · constructor <;> omega

/-- C4 (amended): on every successful listing the effective page is at
least 1 (default 1 when absent), the effective limit lies in [1,100]
(default 10 when absent; out-of-range values are rejected by validation,
not clamped), and the page consists of the rows left after skipping
exactly `(page-1)*limit` of the ordered matching tasks. -/
theorem getTasks_pagination_contract
    (store : List Task) (uid : Nat) (pageQ limitQ : Option Int)
    (sortByQ orderQ : Option String) (c : Nat) (pg : Pagination) (tasks : List Task)
    (h : handleGetTasks store uid pageQ limitQ sortByQ orderQ = .ok c pg tasks) :
    1 ≤ pg.currentPage ∧
    1 ≤ pg.limit ∧ pg.limit ≤ 100 ∧
    (pageQ = none → pg.currentPage = 1) ∧
    (limitQ = none → pg.limit = 10) ∧
    tasks = ((sortedTasks (jsStrOr sortByQ "end_date") (jsStrOr orderQ "asc") store uid).drop
      (((pg.currentPage - 1) * pg.limit).toNat)).take pg.limit.toNat := by
  obtain ⟨herr, hcp, hlim, -, hts, -⟩ := handleGetTasks_ok_inv h
  obtain ⟨hpageB, hlimB⟩ := paginationErrors_nil_inv herr
  refine ⟨?_, ?_, ?_, ?_, ?_, ?_⟩
  · rw [hcp]
    cases pageQ with
    | none => exact le_refl 1
    | some p =>
      have hp := hpageB p rfl
      simp only [jsIntOr, if_neg (by omega : ¬ p = 0)]
      exact hp
  · rw [hlim]
    cases limitQ with
    | none => simp [jsIntOr]
    | some l =>
      obtain ⟨hl1, hl2⟩ := hlimB l rfl
      simp only [jsIntOr, if_neg (by omega : ¬ l = 0)]
      exact hl1
  · rw [hlim]
    cases limitQ with
    | none => simp [jsIntOr]
    | some l =>
      obtain ⟨hl1, hl2⟩ := hlimB l rfl
      simp only [jsIntOr, if_neg (by omega : ¬ l = 0)]
      exact hl2
  · intro hn; subst hn; rw [hcp]; rfl
  · intro hn; subst hn; rw [hlim]; rfl
  · rw [hcp, hlim, hts]; rfl

/-- C4 counterexample: a supplied limit of 200 is rejected with a
validation error rather than clamped to 100; no listing is produced. -/
theorem getTasks_limit_not_clamped :
    handleGetTasks [] 1 none (some 200) none none =
      .badRequest [⟨"limit", "Limit must be between 1 and 100"⟩] := by decide

/-- Witness for C4 on the default-parameter request over an empty store. -/
theorem getTasks_pagination_contract_witness :
    1 ≤ (⟨1, 0, 0, 10, false, false⟩ : Pagination).currentPage ∧
    1 ≤ (⟨1, 0, 0, 10, false, false⟩ : Pagination).limit ∧
    (⟨1, 0, 0, 10, false, false⟩ : Pagination).limit ≤ 100 ∧
    ((none : Option Int) = none → (⟨1, 0, 0, 10, false, false⟩ : Pagination).currentPage = 1) ∧
    ((none : Option Int) = none → (⟨1, 0, 0, 10, false, false⟩ : Pagination).limit = 10) ∧
    ([] : List Task) = ((sortedTasks (jsStrOr none "end_date") (jsStrOr none "asc") [] 1).drop
      ((((⟨1, 0, 0, 10, false, false⟩ : Pagination).currentPage - 1) *
        (⟨1, 0, 0, 10, false, false⟩ : Pagination).limit).toNat)).take
      (⟨1, 0, 0, 10, false, false⟩ : Pagination).limit.toNat :=
  getTasks_pagination_contract [] 1 none none none none 0
    ⟨1, 0, 0, 10, false, false⟩ [] (by decide)

/-- C5: a supplied limit above 100 or below 1, or a supplied page below 1,
is rejected with a 400 validation response carrying the per-field message;
no task listing is produced for such a request. -/
theorem getTasks_rejects_out_of_range
    (store : List Task) (uid : Nat) (pageQ limitQ : Option Int)
    (sortByQ orderQ : Option String) :
    (∀ l, limitQ = some l → l < 1 ∨ 100 < l →
      ∃ errs, handleGetTasks store uid pageQ limitQ sortByQ orderQ = .badRequest errs ∧
        (⟨"limit", "Limit must be between 1 and 100"⟩ : FieldError) ∈ errs) ∧
    (∀ p, pageQ = some p → p < 1 →
      ∃ errs, handleGetTasks store uid pageQ limitQ sortByQ orderQ = .badRequest errs ∧
        (⟨"page", "Page must be a positive integer"⟩ : FieldError) ∈ errs) := by
  constructor
  · intro l hl hrange
    subst hl
    have hmem : (⟨"limit", "Limit must be between 1 and 100"⟩ : FieldError) ∈
        paginationErrors pageQ (some l) sortByQ orderQ := by
      unfold paginationErrors
      simp [List.mem_append, hrange]
    have hne : paginationErrors pageQ (some l) sortByQ orderQ ≠ [] :=
      List.ne_nil_of_mem hmem
    exact ⟨_, by simp only [handleGetTasks, if_neg hne], hmem⟩
  · intro p hp hrange
    subst hp
    have hmem : (⟨"page", "Page must be a positive integer"⟩ : FieldError) ∈
        paginationErrors (some p) limitQ sortByQ orderQ := by
      unfold paginationErrors
      simp [List.mem_append, hrange]
    have hne : paginationErrors (some p) limitQ sortByQ orderQ ≠ [] :=
      List.ne_nil_of_mem hmem
    exact ⟨_, by simp only [handleGetTasks, if_neg hne], hmem⟩

/-- Witness for C5 at limit 200. -/
theorem getTasks_rejects_out_of_range_witness :
    ∃ errs, handleGetTasks [] 1 none (some 200) none none = .badRequest errs ∧
      (⟨"limit", "Limit must be between 1 and 100"⟩ : FieldError) ∈ errs :=
  (getTasks_rejects_out_of_range [] 1 none (some 200) none none).1 200 rfl (by decide)

/-- C6: for GET, PUT (with a body that passes validation) and DELETE on
`/tasks/:id`, a store holding no task with the id and a store whose task
with the id belongs to a different user produce identical responses —
404 with `success: false` — so the two cases are indistinguishable. -/
theorem missing_and_foreign_task_indistinguishable
    (s1 s2 : List Task) (tid uid : Nat) (body : TaskBody) (now : Nat)
    (h1 : ∀ t ∈ s1, t.id ≠ tid)
    (_h2ex : ∃ t ∈ s2, t.id = tid ∧ t.userId ≠ uid)
    (h2 : ∀ t ∈ s2, t.id = tid → t.userId ≠ uid)
    (hbody : taskBodyErrors (trimTaskBody body) = []) :
    handleGetTask s1 tid uid = handleGetTask s2 tid uid ∧
    (handleGetTask s1 tid uid).status = 404 ∧
    (handleGetTask s1 tid uid).success = false ∧
    (handleUpdateTask s1 tid uid body now).2 = (handleUpdateTask s2 tid uid body now).2 ∧
    ((handleUpdateTask s1 tid uid body now).2).status = 404 ∧
    ((handleUpdateTask s1 tid uid body now).2).success = false ∧
    (handleDeleteTask s1 tid uid).2 = (handleDeleteTask s2 tid uid).2 ∧
    ((handleDeleteTask s1 tid uid).2).status = 404 ∧
    ((handleDeleteTask s1 tid uid).2).success = false := by
  have hf1 : findTask s1 tid uid = none := by
    rw [findTask, List.find?_eq_none]
    intro t ht
    simp only [Bool.and_eq_true, beq_iff_eq, not_and]
    intro hid _
    exact h1 t ht hid
  have hf2 : findTask s2 tid uid = none := by
    rw [findTask, List.find?_eq_none]
    intro t ht
    simp only [Bool.and_eq_true, beq_iff_eq, not_and]
    exact fun hid huid => h2 t ht hid huid
  refine ⟨?_, ?_, ?_, ?_, ?_, ?_, ?_, ?_, ?_⟩ <;>
    simp [handleGetTask, handleUpdateTask, handleDeleteTask, updateTaskCore,
      hf1, hf2, hbody, TaskResp.status, TaskResp.success,
      UpdateResp.status, UpdateResp.success, DeleteResp.status, DeleteResp.success]

/-- Witness for C6: empty store versus a store holding only a foreign
task. -/
theorem missing_and_foreign_task_indistinguishable_witness :
    handleGetTask [] 4 5 = handleGetTask [sampleForeign] 4 5 :=
  (missing_and_foreign_task_indistinguishable [] [sampleForeign] 4 5
    ⟨some "T", none, some "high", some 7⟩ 99
    (fun t ht => nomatch ht)
    ⟨sampleForeign, by decide⟩
    (fun t ht => by
      rcases List.mem_singleton.mp ht with rfl
      decide)
    (by decide)).1

/-- C3 counterexample: a PUT supplying only `description` — on a task the
requester owns — is rejected by the route-level `taskValidation` with a
400 validation response, and the task is left entirely untouched: the
route does not accept an arbitrary subset of the four fields. -/
theorem updateTask_description_only_rejected :
    handleUpdateTask [sampleHigh] 1 5 ⟨none, some "new", none, none⟩ 99 =
      ([sampleHigh], .badRequest
        [⟨"title", "Title is required"⟩,
         ⟨"priority", "Priority is required"⟩,
         ⟨"priority", "Priority must be low, medium, or high"⟩,
         ⟨"endDate", "End date is required"⟩,
         ⟨"endDate", "End date must be a valid date (YYYY-MM-DD)"⟩]) := by decide

/-- C3 (amended): on a PUT whose body passes `taskValidation` (which
requires `title`, `priority` and `endDate` to be supplied and valid, so
only `description` may be omitted) against a task the requester owns, the
controller merges partially: an omitted `description` keeps its stored
value, each supplied field replaces the stored one, the `updated_at`
timestamp is refreshed, and id, owner and creation timestamp are
untouched.  A request supplying only `description` never reaches the
controller (see the counterexample). -/
theorem updateTask_partial_merge
    (store : List Task) (tid uid : Nat) (t : Task) (b : TaskBody) (now : Nat)
    (hfind : findTask store tid uid = some t)
    (hvalid : taskBodyErrors (trimTaskBody b) = []) :
    ∃ t', handleUpdateTask store tid uid b now =
        (store.map fun u => if u.id == t.id then t' else u,
         .ok "Task updated successfully" t') ∧
      (b.description = none → t'.description = t.description) ∧
      (∀ s, (trimTaskBody b).description = some s → t'.description = some s) ∧
      (∀ s, (trimTaskBody b).title = some s → t'.title = s) ∧
      (∀ p, b.priority = some p → t'.priority = p) ∧
      (∀ d, b.endDate = some d → t'.endDate = d) ∧
      t'.updatedAt = now ∧ t'.id = t.id ∧ t'.userId = t.userId ∧
      t'.createdAt = t.createdAt := by
  refine ⟨mergeTask t (trimTaskBody b) now, ?_, ?_, ?_, ?_, ?_, ?_, rfl, rfl, rfl, rfl⟩
  · simp [handleUpdateTask, updateTaskCore, hvalid, hfind]
  · intro hd
    simp [mergeTask, trimTaskBody, hd]
  · intro s hs
    simp [mergeTask, hs]
  · intro s hs
    have hne : s ≠ "" := by
      intro hemp
      simp only [taskBodyErrors, hs, hemp] at hvalid
      simp at hvalid
    simp [mergeTask, jsStrOr, hs, hne]
  · intro p hp
    have hbp : (trimTaskBody b).priority = some p := hp
    have hne : p ≠ "" := by
      intro hemp
      simp only [taskBodyErrors, hbp, hemp] at hvalid
      simp at hvalid
    simp [mergeTask, jsStrOr, hbp, hne]
  · intro d hd
    have hbd : (trimTaskBody b).endDate = some d := hd
    simp [mergeTask, hbd]

/-- Witness for C3 on the sample store with a full valid body that omits
`description`. -/
theorem updateTask_partial_merge_witness :
    ∃ t', handleUpdateTask [sampleHigh] 1 5 ⟨some "T2", none, some "low", some 9⟩ 42 =
        ([sampleHigh].map fun u => if u.id == sampleHigh.id then t' else u,
         .ok "Task updated successfully" t') ∧
      ((⟨some "T2", none, some "low", some 9⟩ : TaskBody).description = none →
        t'.description = sampleHigh.description) ∧
      (∀ s, (trimTaskBody ⟨some "T2", none, some "low", some 9⟩).description = some s →
        t'.description = some s) ∧
      (∀ s, (trimTaskBody ⟨some "T2", none, some "low", some 9⟩).title = some s →
        t'.title = s) ∧
      (∀ p, (⟨some "T2", none, some "low", some 9⟩ : TaskBody).priority = some p →
        t'.priority = p) ∧
      (∀ d, (⟨some "T2", none, some "low", some 9⟩ : TaskBody).endDate = some d →
        t'.endDate = d) ∧
      t'.updatedAt = 42 ∧ t'.id = sampleHigh.id ∧ t'.userId = sampleHigh.userId ∧
      t'.createdAt = sampleHigh.createdAt :=
  updateTask_partial_merge [sampleHigh] 1 5 sampleHigh
    ⟨some "T2", none, some "low", some 9⟩ 42 (by decide) (by decide)

/-- A sample stored user (id 2). -/
def sampleUser : User := ⟨2, "Jane", "jane@x.com", "stored-hash", 0⟩

/-- C7: a correctly signed, non-expired token whose bound user id no
longer exists in the user store is rejected by `protect` as 401 with the
user-not-found message, and never resolves to an identity; since the
conclusion holds for every store containing no user with that id, deleting
a user invalidates all outstanding tokens bound to it. -/
theorem deleted_user_token_unauthorized
    (users : List User) (secret now uid exp : Nat) (req : AuthRequest)
    (hexp : now < exp)
    (htok : extractToken req = some (.signed secret uid exp))
    (hgone : ∀ u ∈ users, u.id ≠ uid) :
    protect users secret now req = .userNotFound ∧
    authFailResponse (protect users secret now req) =
      some ⟨401, false, "User not found. Token is invalid."⟩ ∧
    (∀ su, protect users secret now req ≠ .ok su) := by
  have hfind : findByPk users uid = none := by
    rw [findByPk, List.find?_eq_none]
    intro u hu
    simp only [beq_iff_eq]
    exact hgone u hu
  have hp : protect users secret now req = .userNotFound := by
    simp [protect, htok, jwtVerify, hexp, hfind]
  exact ⟨hp, by rw [hp]; rfl,
    fun su h => by rw [hp] at h; exact AuthResult.noConfusion h⟩

/-- Witness for C7: a valid token for the deleted user 1 against a store
holding only user 2. -/
theorem deleted_user_token_unauthorized_witness :
    protect [sampleUser] 7 10 ⟨none, some ("Bearer", .signed 7 1 20)⟩ = .userNotFound :=
  (deleted_user_token_unauthorized [sampleUser] 7 10 1 20
    ⟨none, some ("Bearer", .signed 7 1 20)⟩ (by decide) (by decide)
    (fun u hu => by rcases List.mem_singleton.mp hu with rfl; decide)).1

/-- C10: logout changes no persisted state — it only re-sets the `token`
cookie to the literal value `none` with a 10-second expiry and answers
200 — and does not invalidate the session token: after logout `protect`
behaves identically, and any unexpired signed token presented in the
Authorization header still resolves to the same stored user. -/
theorem logout_stateless (s : AppState) (secret now : Nat) :
    (logout s).1 = s ∧
    (logout s).2.1 = ⟨"token", "none", 10000, true⟩ ∧
    (logout s).2.2 = ⟨200, true, "Logout successful"⟩ ∧
    (∀ req : AuthRequest, protect (logout s).1.users secret now req =
      protect s.users secret now req) ∧
    (∀ uid exp u, now < exp → findByPk s.users uid = some u →
      protect (logout s).1.users secret now
        ⟨none, some ("Bearer", .signed secret uid exp)⟩ = .ok (stripPassword u)) := by
  refine ⟨rfl, rfl, rfl, fun req => rfl, ?_⟩
  intro uid exp u hexp hfind
  simp [logout, protect, extractToken,
    show startsWithBearer "Bearer" = true from by decide, jwtVerify, hexp, hfind]

/-- Witness for C10: the sample user still authenticates after logout. -/
theorem logout_stateless_witness :
    protect (logout ⟨[sampleUser], []⟩).1.users 7 10
      ⟨none, some ("Bearer", .signed 7 2 20)⟩ = .ok (stripPassword sampleUser) :=
  (logout_stateless ⟨[sampleUser], []⟩ 7 10).2.2.2.2 2 20 sampleUser
    (by decide) (by decide)

/-- C8: a registration with a fresh email persists the password only as
the cost-10 salted bcrypt hash (bcrypt salts are 22 characters), the
stored value is never equal to the submitted plaintext, and
`comparePassword` accepts exactly the correct plaintext. -/
theorem register_hashes_password
    (users : List User) (name email pw salt : String) (newId now : Nat)
    (hsalt : salt.length = 22)
    (hfresh : users.find? (fun u => u.email == email) = none) :
    ∃ u, register users name email pw salt newId now = (users ++ [u], .created u) ∧
      u.password = bcryptHash 10 salt pw ∧
      u.password ≠ pw ∧
      comparePassword u pw = true ∧
      (∀ other, other ≠ pw → comparePassword u other = false) := by
  have hdata : (bcryptHash 10 salt pw).data =
      ("$2b$".data ++ ((toString (10 : Nat)).data ++ ("$".data ++ salt.data))) ++ pw.data := by
    simp [bcryptHash, String.data_append, List.append_assoc]
  have hs22 : salt.data.length = 22 := hsalt
  have hPlen : ("$2b$".data ++ ((toString (10 : Nat)).data ++ ("$".data ++ salt.data))).length = 29 := by
    simp only [List.length_append]
    rw [hs22, show ("$2b$" : String).data.length = 4 from by decide,
      show (toString (10 : Nat)).data.length = 2 from by decide,
      show ("$" : String).data.length = 1 from by decide]
  have htake : (bcryptHash 10 salt pw).data.take 29 =
      "$2b$".data ++ ((toString (10 : Nat)).data ++ ("$".data ++ salt.data)) := by
    rw [hdata, ← hPlen, List.take_left]
  refine ⟨hashedUser newId name email pw salt now, ?_, rfl, ?_, ?_, ?_⟩
  · simp [register, hfresh]
  · intro heq
    have heq' : bcryptHash 10 salt pw = pw := heq
    have hl := congrArg (fun s : String => s.data.length) heq'
    simp only [hdata] at hl
    rw [List.length_append, hPlen] at hl
    omega
  · show bcryptCompare pw (bcryptHash 10 salt pw) = true
    rw [bcryptCompare, htake, hdata, beq_iff_eq]
  · intro other hother
    show bcryptCompare other (bcryptHash 10 salt pw) = false
    rw [bcryptCompare, htake, hdata, beq_eq_false_iff_ne]
    intro h
    have hd := List.append_cancel_left h
    apply hother
    cases other with
    | mk d1 =>
      cases pw with
      | mk d2 => exact congrArg String.mk hd.symm

/-- Witness for C8 at a concrete registration. -/
theorem register_hashes_password_witness :
    ∃ u, register [] "Jane" "jane@x.com" "secret1" "abcdefghijklmnopqrstuv" 1 0 =
        ([] ++ [u], .created u) ∧
      u.password = bcryptHash 10 "abcdefghijklmnopqrstuv" "secret1" ∧
      u.password ≠ "secret1" ∧
      comparePassword u "secret1" = true ∧
      (∀ other, other ≠ "secret1" → comparePassword u other = false) :=
  register_hashes_password [] "Jane" "jane@x.com" "secret1"
    "abcdefghijklmnopqrstuv" 1 0 (by decide) rfl

/-- C9: no serialized payload carries the stored password: the user object
of register/login responses and of getMe, the attribute selection of
`protect`, and the attribute list of the task listing all exclude the
`password` field. -/
theorem password_never_serialized :
    (∀ u : User, (sendTokenResponseUserJson u).all
      (fun kv => kv.1 != "password") = true) ∧
    (∀ u : User, (getMeUserJson u).all (fun kv => kv.1 != "password") = true) ∧
    "password" ∉ protectSelectedAttributes ∧
    "password" ∉ getTasksSelectedAttributes :=
  ⟨fun _ => rfl, fun _ => rfl, by decide, by decide⟩

end Blys
